import Mathlib

/-!
Shallow embedding of the libFirm x86/amd64 backend attribute model and
assembly emitter (src/ir/be/amd64/amd64_new_nodes.c,
src/ir/be/amd64/amd64_emitter.c, src/ir/be/ia32/ia32_new_nodes.c), together
with proofs about the CSE equality predicates, the fallthrough and
conditional-branch emission logic, addressing-mode rendering, relocation
suffixes, register sub-naming and the per-node frame-offset bookkeeping.

Pointers (ir_entity, ir_type, ir_mode pointers) are modelled by abstract
identities; entities carry their linker name as identity since the emitter
only ever prints that name.  Machine integers that are only compared or
printed (int32_t / int64_t offsets) are modelled as Int.
-/

set_option autoImplicit false

namespace Firm

/-- Relocation kinds of x86 immediates.  The tags are exactly the
x86_immediate_kind_t enumerators that appear in the switches of the source
(emit_relocation_no_offset, ia32_attrs_equal_). -/
inductive x86_immediate_kind_t where
  | X86_IMM_VALUE
  | X86_IMM_ADDR
  | X86_IMM_PCREL
  | X86_IMM_GOTPCREL
  | X86_IMM_PLT
  | X86_IMM_TLS_IE
  | X86_IMM_TLS_LE
  | X86_IMM_PICBASE_REL
  | X86_IMM_FRAMEENT
  | X86_IMM_GOT
  | X86_IMM_GOTOFF
deriving DecidableEq

/-- An ir_entity reference: NULL or an entity, identified by its linker
name (the only datum of an entity the embedded code ever consumes). -/
abbrev EntityRef := Option String

/-- x86_imm32_t: 32-bit immediate with optional symbolic relocation
(entity + kind) and a signed 32-bit offset. -/
structure x86_imm32_t where
  kind   : x86_immediate_kind_t
  entity : EntityRef
  offset : Int
deriving DecidableEq

/-- Modelled from the spec: x86_imm32_equal (declared in
src/ir/be/ia32/x86_address_mode.h, which is not part of the visible
sources).  Per the spec, immediates are CSE-compared by value plus
relocation identity; the relocation of an immediate is its entity together
with its kind. -/
def x86_imm32_equal (imm0 imm1 : x86_imm32_t) : Bool :=
  imm0.entity == imm1.entity && imm0.offset == imm1.offset
    && imm0.kind == imm1.kind

/-- amd64_imm64_t: full 64-bit immediate of the move-immediate forms. -/
structure amd64_imm64_t where
  entity : EntityRef
  offset : Int
  kind   : x86_immediate_kind_t
deriving DecidableEq

/-- Modelled from the spec: x86_addr_variant_t (declared in
src/ir/be/ia32/x86_address_mode.h, not part of the visible sources).  The
spec describes the variants: register-direct, register-indirect with
optional index/scale (base only, base+index, index only), RIP-relative and
absolute-immediate-only; X86_ADDR_INVALID marks an unset variant. -/
inductive x86_addr_variant_t where
  | X86_ADDR_INVALID
  | X86_ADDR_REG
  | X86_ADDR_JUST_IMM
  | X86_ADDR_BASE
  | X86_ADDR_BASE_INDEX
  | X86_ADDR_INDEX
  | X86_ADDR_RIP
deriving DecidableEq

/-- Modelled from the spec: whether the addressing variant declares a base
operand ("the resolved base register (if the variant declares one)").
Register-direct addressing stores its register in the base slot. -/
def x86_addr_variant_has_base (variant : x86_addr_variant_t) : Bool :=
  match variant with
  | .X86_ADDR_REG | .X86_ADDR_BASE | .X86_ADDR_BASE_INDEX => true
  | _ => false

/-- Modelled from the spec: whether the addressing variant declares an
index operand. -/
def x86_addr_variant_has_index (variant : x86_addr_variant_t) : Bool :=
  match variant with
  | .X86_ADDR_BASE_INDEX | .X86_ADDR_INDEX => true
  | _ => false

/-- amd64_segment_selector_t from amd64_nodes_attr.h. -/
inductive amd64_segment_selector_t where
  | AMD64_SEGMENT_DEFAULT
  | AMD64_SEGMENT_CS
  | AMD64_SEGMENT_SS
  | AMD64_SEGMENT_DS
  | AMD64_SEGMENT_ES
  | AMD64_SEGMENT_FS
  | AMD64_SEGMENT_GS
deriving DecidableEq

/-- amd64_addr_t from amd64_nodes_attr.h: immediate, input ordinals for
base/index/mem/reg, scale exponent, segment and addressing variant. -/
structure amd64_addr_t where
  immediate   : x86_imm32_t
  base_input  : Nat
  index_input : Nat
  mem_input   : Nat
  reg_input   : Nat
  log_scale   : Nat
  segment     : amd64_segment_selector_t
  variant     : x86_addr_variant_t
deriving DecidableEq

/-- amd64_op_mode_t from amd64_nodes_attr.h. -/
inductive amd64_op_mode_t where
  | AMD64_OP_NONE
  | AMD64_OP_ADDR
  | AMD64_OP_REG
  | AMD64_OP_REG_ADDR
  | AMD64_OP_REG_REG
  | AMD64_OP_REG_IMM
  | AMD64_OP_IMM32
  | AMD64_OP_IMM64
  | AMD64_OP_ADDR_REG
  | AMD64_OP_ADDR_IMM
  | AMD64_OP_SHIFT_REG
  | AMD64_OP_SHIFT_IMM
  | AMD64_OP_X87
  | AMD64_OP_X87_ADDR_REG
  | AMD64_OP_CC
deriving DecidableEq

/-- amd64_insn_size_t from amd64_nodes_attr.h (kept sorted as the source
demands). -/
inductive amd64_insn_size_t where
  | INSN_SIZE_8
  | INSN_SIZE_16
  | INSN_SIZE_32
  | INSN_SIZE_64
  | INSN_SIZE_80
  | INSN_SIZE_128
deriving DecidableEq

/-- amd64_attr_t: base attribute of every amd64 node (the exception
attribute is owned by the generic framework and takes no part in any
embedded computation, so only the op_mode discriminator is carried). -/
structure amd64_attr_t where
  op_mode : amd64_op_mode_t
deriving DecidableEq

/-- amd64_addr_attr_t: base attribute plus operand size and address. -/
structure amd64_addr_attr_t where
  base : amd64_attr_t
  size : amd64_insn_size_t
  addr : amd64_addr_t
deriving DecidableEq

/-- imm64s_equal from amd64_new_nodes.c: 64-bit move immediates are equal
iff offset and entity agree. -/
def imm64s_equal (imm0 imm1 : amd64_imm64_t) : Bool :=
  imm0.offset == imm1.offset && imm0.entity == imm1.entity

/-- amd64_addrs_equal from amd64_new_nodes.c. -/
def amd64_addrs_equal (am0 am1 : amd64_addr_t) : Bool :=
  x86_imm32_equal am0.immediate am1.immediate
    && am0.base_input == am1.base_input
    && am0.index_input == am1.index_input
    && am0.log_scale == am1.log_scale
    && am0.segment == am1.segment

/-- amd64_attrs_equal from amd64_new_nodes.c: compares the op_mode
discriminators. -/
def amd64_attrs_equal (attr_a attr_b : amd64_attr_t) : Bool :=
  attr_a.op_mode == attr_b.op_mode

/-- amd64_addr_attrs_equal from amd64_new_nodes.c. -/
def amd64_addr_attrs_equal (attr_a attr_b : amd64_addr_attr_t) : Bool :=
  amd64_attrs_equal attr_a.base attr_b.base
    && amd64_addrs_equal attr_a.addr attr_b.addr
    && attr_a.size == attr_b.size

/-- ia32_attr_t: the fields of the common ia32 attribute record that
ia32_attrs_equal_ consumes (ia32_new_nodes.c).  The op-type tag, the
load-store mode pointer and the frame-use marker are abstract identities;
am_scale is the addressing scale exponent and am_imm the addressing
immediate. -/
structure ia32_attr_t where
  tp               : Nat
  am_scale         : Nat
  am_imm           : x86_imm32_t
  ls_mode          : Nat
  frame_use        : Nat
  has_except_label : Bool
  ins_permuted     : Bool
deriving DecidableEq

/-- ia32_attrs_equal_ from ia32_new_nodes.c: records whose addressing
immediate is a frame-relative relocation with a still-unassigned (NULL)
entity never compare equal; otherwise all consumed fields are compared. -/
def ia32_attrs_equal_ (a b : ia32_attr_t) : Bool :=
  if a.am_imm.kind == .X86_IMM_FRAMEENT && a.am_imm.entity == none then
    false
  else
    a.tp == b.tp
      && a.am_scale == b.am_scale
      && x86_imm32_equal a.am_imm b.am_imm
      && a.ls_mode == b.ls_mode
      && a.frame_use == b.frame_use
      && a.has_except_label == b.has_except_label
      && a.ins_permuted == b.ins_permuted

/-- ia32_attrs_equal from ia32_new_nodes.c dispatches to ia32_attrs_equal_
on the two nodes' common attribute records. -/
def ia32_attrs_equal (a b : ia32_attr_t) : Bool :=
  ia32_attrs_equal_ a b

/-- Predicate of the never-CSE exception: the addressing immediate is a
frame-relative relocation whose entity is still unresolved. -/
def ia32_unresolved_frame (a : ia32_attr_t) : Prop :=
  a.am_imm.kind = .X86_IMM_FRAMEENT ∧ a.am_imm.entity = none

instance (a : ia32_attr_t) : Decidable (ia32_unresolved_frame a) := by
  unfold ia32_unresolved_frame
  infer_instance

/-- Characterization of ia32_attrs_equal: true exactly when the left record
is not an unresolved frame reference and every consumed field agrees. -/
lemma ia32_attrs_equal_iff (a b : ia32_attr_t) :
    ia32_attrs_equal a b = true ↔
      (¬ ia32_unresolved_frame a
       ∧ a.tp = b.tp ∧ a.am_scale = b.am_scale
       ∧ a.am_imm.entity = b.am_imm.entity
       ∧ a.am_imm.offset = b.am_imm.offset
       ∧ a.am_imm.kind = b.am_imm.kind
       ∧ a.ls_mode = b.ls_mode ∧ a.frame_use = b.frame_use
       ∧ a.has_except_label = b.has_except_label
       ∧ a.ins_permuted = b.ins_permuted) := by
  unfold ia32_attrs_equal ia32_attrs_equal_ ia32_unresolved_frame
  unfold x86_imm32_equal
  split
  case isTrue h =>
    simp only [Bool.and_eq_true, beq_iff_eq] at h
    simp [h.1, h.2]
  case isFalse h =>
    simp only [Bool.and_eq_true, beq_iff_eq] at h ⊢
    tauto

/-- C1 (amended): amd64_addr_attrs_equal holds iff the op-mode
discriminators match, the operand sizes match, and the addressing modes
agree on the 32-bit immediate (value, entity and relocation kind), the
base-input ordinal, the index-input ordinal, the scale exponent and the
segment; the variant tag is not part of the comparison.  imm64s_equal
holds iff the 64-bit immediates match by value and entity identity. -/
theorem amd64_cse_equality_characterization :
    (∀ a b : amd64_addr_attr_t,
       amd64_addr_attrs_equal a b = true ↔
         (a.base.op_mode = b.base.op_mode
          ∧ a.size = b.size
          ∧ a.addr.immediate.entity = b.addr.immediate.entity
          ∧ a.addr.immediate.offset = b.addr.immediate.offset
          ∧ a.addr.immediate.kind = b.addr.immediate.kind
          ∧ a.addr.base_input = b.addr.base_input
          ∧ a.addr.index_input = b.addr.index_input
          ∧ a.addr.log_scale = b.addr.log_scale
          ∧ a.addr.segment = b.addr.segment))
    ∧ (∀ imm0 imm1 : amd64_imm64_t,
       imm64s_equal imm0 imm1 = true ↔
         (imm0.offset = imm1.offset ∧ imm0.entity = imm1.entity)) := by
  constructor
  · intro a b
    unfold amd64_addr_attrs_equal amd64_attrs_equal amd64_addrs_equal
    unfold x86_imm32_equal
    simp only [Bool.and_eq_true, beq_iff_eq]
    tauto
  · intro imm0 imm1
    unfold imm64s_equal
    simp only [Bool.and_eq_true, beq_iff_eq]

/-- C1 counterexample: two addressing attribute records that agree on
op_mode, size, immediate, base input, index input, scale and segment but
carry different variant tags are nevertheless CSE-equal — refuting the
claim that equality requires the variant tags to match. -/
theorem amd64_addr_attrs_equal_ignores_variant :
    amd64_addr_attrs_equal
        ⟨⟨.AMD64_OP_ADDR⟩, .INSN_SIZE_32,
          ⟨⟨.X86_IMM_VALUE, none, 0⟩, 0, 0, 0, 0, 0,
           .AMD64_SEGMENT_DEFAULT, .X86_ADDR_BASE⟩⟩
        ⟨⟨.AMD64_OP_ADDR⟩, .INSN_SIZE_32,
          ⟨⟨.X86_IMM_VALUE, none, 0⟩, 0, 0, 0, 0, 0,
           .AMD64_SEGMENT_DEFAULT, .X86_ADDR_BASE_INDEX⟩⟩ = true
    ∧ x86_addr_variant_t.X86_ADDR_BASE ≠ x86_addr_variant_t.X86_ADDR_BASE_INDEX := by
  exact ⟨by decide, by decide⟩

/-- C5: the ia32 CSE attribute-equality predicate is reflexive on every
record that is not an unresolved frame-relative reference, is symmetric on
all records, and any record whose addressing immediate is a frame-relative
relocation with a NULL entity compares unequal to every record in both
argument positions (itself included). -/
theorem ia32_attrs_equal_refl_symm_unresolved :
    (∀ a : ia32_attr_t, ¬ ia32_unresolved_frame a →
       ia32_attrs_equal a a = true)
    ∧ (∀ a b : ia32_attr_t, ia32_attrs_equal a b = ia32_attrs_equal b a)
    ∧ (∀ a b : ia32_attr_t, ia32_unresolved_frame a →
       ia32_attrs_equal a b = false ∧ ia32_attrs_equal b a = false) := by
  refine ⟨?_, ?_, ?_⟩
  · intro a h
    exact (ia32_attrs_equal_iff a a).mpr
      ⟨h, rfl, rfl, rfl, rfl, rfl, rfl, rfl, rfl, rfl⟩
  · intro a b
    cases hab : ia32_attrs_equal a b <;> cases hba : ia32_attrs_equal b a
      <;> try rfl
    · exfalso
      obtain ⟨hnb, h1, h2, h3, h4, h5, h6, h7, h8, h9⟩ :=
        (ia32_attrs_equal_iff b a).mp hba
      have : ia32_attrs_equal a b = true :=
        (ia32_attrs_equal_iff a b).mpr
          ⟨fun hua => hnb ⟨h5.trans hua.1, h3.trans hua.2⟩,
           h1.symm, h2.symm, h3.symm, h4.symm, h5.symm, h6.symm, h7.symm,
           h8.symm, h9.symm⟩
      simp [hab] at this
    · exfalso
      obtain ⟨hna, h1, h2, h3, h4, h5, h6, h7, h8, h9⟩ :=
        (ia32_attrs_equal_iff a b).mp hab
      have : ia32_attrs_equal b a = true :=
        (ia32_attrs_equal_iff b a).mpr
          ⟨fun hub => hna ⟨h5.trans hub.1, h3.trans hub.2⟩,
           h1.symm, h2.symm, h3.symm, h4.symm, h5.symm, h6.symm, h7.symm,
           h8.symm, h9.symm⟩
      simp [hba] at this
  · intro a b hua
    constructor
    · cases h : ia32_attrs_equal a b
      · rfl
      · exact absurd hua ((ia32_attrs_equal_iff a b).mp h).1
    · cases h : ia32_attrs_equal b a
      · rfl
      · obtain ⟨hnb, _, _, h3, _, h5, _⟩ := (ia32_attrs_equal_iff b a).mp h
        exact absurd ⟨h5.trans hua.1, h3.trans hua.2⟩ hnb

/-- Witness for C5: concrete evaluations obtained by applying the theorem —
a resolved record equals itself, and an identical pair of unresolved
frame-relative records compares unequal. -/
theorem ia32_attrs_equal_refl_symm_unresolved_witness :
    ia32_attrs_equal
        ⟨0, 0, ⟨.X86_IMM_VALUE, none, 0⟩, 0, 0, false, false⟩
        ⟨0, 0, ⟨.X86_IMM_VALUE, none, 0⟩, 0, 0, false, false⟩ = true
    ∧ ia32_attrs_equal
        ⟨0, 0, ⟨.X86_IMM_FRAMEENT, none, 0⟩, 0, 0, false, false⟩
        ⟨0, 0, ⟨.X86_IMM_FRAMEENT, none, 0⟩, 0, 0, false, false⟩ = false :=
  ⟨ia32_attrs_equal_refl_symm_unresolved.1
      ⟨0, 0, ⟨.X86_IMM_VALUE, none, 0⟩, 0, 0, false, false⟩ (by decide),
   (ia32_attrs_equal_refl_symm_unresolved.2.2
      ⟨0, 0, ⟨.X86_IMM_FRAMEENT, none, 0⟩, 0, 0, false, false⟩
      ⟨0, 0, ⟨.X86_IMM_FRAMEENT, none, 0⟩, 0, 0, false, false⟩
      (by exact ⟨rfl, rfl⟩)).1⟩

/-- Blocks are identified by abstract ids; a linear block order is the
block schedule computed by be_create_block_schedule. -/
abbrev Block := Nat

/-- One emitted assembler line of the control-flow emitters, abstracted to
the instruction kind and its target block: an unconditional jump, a
conditional jump with its condition code, a jump-on-parity, or the
verbose-mode fallthrough comment. -/
inductive AsmLine where
  | jmp (target : Block)
  | jcc (cc : Nat) (target : Block)
  | jp (target : Block)
  | fallthroughComment (target : Block)
deriving DecidableEq

/-- Modelled from the spec: be_emit_get_prev_block (beemithlp, not among
the visible sources; be_emit_init_cf_links records for every block its
predecessor in the linear block order).  Returns the block standing
immediately before the target in the order. -/
def be_emit_get_prev_block : List Block → Block → Option Block
  | a :: b :: rest, target =>
      if b = target then some a else be_emit_get_prev_block (b :: rest) target
  | _, _ => none

/-- fallthrough_possible from amd64_emitter.c: the target can be reached
by falling through iff the block before the target in the linear order is
the source block. -/
def fallthrough_possible (order : List Block) (block target : Block) : Bool :=
  be_emit_get_prev_block order target == some block

/-- Spec-side notion for the refinement statement of the fallthrough rule:
the immediate successor of a block in the linear block order. -/
def immediate_successor : List Block → Block → Option Block
  | a :: b :: rest, blk =>
      if a = blk then some b else immediate_successor (b :: rest) blk
  | _, _ => none

/-- emit_amd64_jmp from amd64_emitter.c: elide the jump (keeping only the
verbose comment) when the target block can be reached by fallthrough,
otherwise emit an explicit jmp. -/
def emit_amd64_jmp (order : List Block) (verbose : Bool)
    (block target : Block) : List AsmLine :=
  if fallthrough_possible order block target then
    if verbose then [.fallthroughComment target] else []
  else
    [.jmp target]

/-- Modelled from the spec: the x86_cc_negated flag of x86_condition_code_t
(x86_cc.h, not among the visible sources) — the bit of a condition code
that records negated polarity. -/
def x86_cc_negated : Nat := 1

/-- Modelled from the spec: the x86_cc_float_parity_cases flag of
x86_condition_code_t — the bit marking the condition codes of the
floating-point unordered family, which need an extra parity test. -/
def x86_cc_float_parity_cases : Nat := 32

/-- Modelled from the spec: x86_negate_condition_code — logical negation
of a condition code toggles its negated-polarity bit. -/
def x86_negate_condition_code (cc : Nat) : Nat :=
  cc ^^^ x86_cc_negated

/-- The projection/condition exchange performed at the head of
emit_amd64_jcc: if the true projection's target can be reached by
fallthrough, the two projections are exchanged and the condition is
negated.  Result: (true-proj target, false-proj target, condition). -/
def amd64_jcc_swap (order : List Block) (block target_true target_false : Block)
    (cc : Nat) : Block × Block × Nat :=
  if fallthrough_possible order block target_true then
    (target_false, target_true, x86_negate_condition_code cc)
  else
    (target_true, target_false, cc)

/-- emit_amd64_jcc from amd64_emitter.c, for a branch out of the given
block with true/false projection targets and a condition code already
corrected by determine_final_cc: after the possible exchange an extra
jp is emitted for the unordered family, then the conditional jump for the
true projection, then a jmp to the false projection's target unless that
edge falls through. -/
def emit_amd64_jcc (order : List Block) (verbose : Bool)
    (block target_true target_false : Block) (cc : Nat) : List AsmLine :=
  let s := amd64_jcc_swap order block target_true target_false cc
  let proj_true := s.1
  let proj_false := s.2.1
  let cc := s.2.2
  (if cc &&& x86_cc_float_parity_cases ≠ 0 then
     if cc &&& x86_cc_negated ≠ 0 then [AsmLine.jp proj_true]
     else [AsmLine.jp proj_false]
   else [])
  ++ [AsmLine.jcc cc proj_true]
  ++ (if fallthrough_possible order block proj_false then
        if verbose then [AsmLine.fallthroughComment proj_false] else []
      else [AsmLine.jmp proj_false])

/-- A block returned by be_emit_get_prev_block occurs in the order. -/
lemma be_emit_get_prev_block_mem {l : List Block} {t p : Block}
    (h : be_emit_get_prev_block l t = some p) : p ∈ l := by
  induction l with
  | nil => simp [be_emit_get_prev_block] at h
  | cons a tail ih =>
    cases tail with
    | nil => simp [be_emit_get_prev_block] at h
    | cons b rest =>
      rw [be_emit_get_prev_block] at h
      split at h
      · cases h
        simp
      · exact List.mem_cons_of_mem a (ih h)

/-- A block returned by immediate_successor occurs in the tail of the
order. -/
lemma immediate_successor_mem_tail {x : Block} {xs : List Block} {b t : Block}
    (h : immediate_successor (x :: xs) b = some t) : t ∈ xs := by
  induction xs generalizing x with
  | nil => simp [immediate_successor] at h
  | cons y rest ih =>
    rw [immediate_successor] at h
    split at h
    · cases h
      simp
    · exact List.mem_cons_of_mem y (ih h)

/-- On a duplicate-free linear order, the predecessor query of the source
and the immediate-successor relation of the spec coincide. -/
lemma prev_eq_iff_immediate_successor {l : List Block} (hn : l.Nodup)
    (b t : Block) :
    be_emit_get_prev_block l t = some b ↔ immediate_successor l b = some t := by
  induction l with
  | nil => simp [be_emit_get_prev_block, immediate_successor]
  | cons a tail ih =>
    cases tail with
    | nil => simp [be_emit_get_prev_block, immediate_successor]
    | cons x rest =>
      have ha : a ∉ x :: rest := (List.nodup_cons.mp hn).1
      have hn2 : (x :: rest).Nodup := (List.nodup_cons.mp hn).2
      have hx : x ∉ rest := (List.nodup_cons.mp hn2).1
      rw [be_emit_get_prev_block, immediate_successor]
      by_cases hxt : x = t
      · rw [if_pos hxt]
        by_cases hab : a = b
        · subst hab
          rw [if_pos rfl, hxt]
          simp
        · rw [if_neg hab]
          constructor
          · intro h
            exact absurd (Option.some.inj h) hab
          · intro h
            exact absurd (hxt ▸ immediate_successor_mem_tail h) hx
      · rw [if_neg hxt]
        by_cases hab : a = b
        · subst hab
          rw [if_pos rfl]
          constructor
          · intro h
            exact absurd (be_emit_get_prev_block_mem h) ha
          · intro h
            exact absurd (Option.some.inj h) hxt
        · rw [if_neg hab]
          exact ih hn2

/-- C2: on a duplicate-free linear block order, emit_amd64_jmp emits no
jump instruction (only the optional verbose comment) exactly when the
target block is the immediate successor of the jump's block in the order;
otherwise it emits an explicit jmp to the target's label. -/
theorem emit_amd64_jmp_fallthrough_elision :
    ∀ (order : List Block) (verbose : Bool) (block target : Block),
      order.Nodup →
      ((emit_amd64_jmp order verbose block target
          = if verbose then [AsmLine.fallthroughComment target] else [])
        ↔ immediate_successor order block = some target)
      ∧ (immediate_successor order block ≠ some target →
          emit_amd64_jmp order verbose block target = [AsmLine.jmp target]) := by
  intro order verbose block target hn
  have key : fallthrough_possible order block target = true
      ↔ immediate_successor order block = some target := by
    unfold fallthrough_possible
    rw [beq_iff_eq]
    exact prev_eq_iff_immediate_successor hn block target
  constructor
  · unfold emit_amd64_jmp
    split
    case isTrue h =>
      simp [key.mp h]
    case isFalse h =>
      have hns : ¬ immediate_successor order block = some target :=
        fun hc => h (key.mpr hc)
      simp only [hns, iff_false]
      cases verbose <;> simp
  · intro hns
    unfold emit_amd64_jmp
    rw [if_neg (fun h => hns (key.mp h))]

/-- Witness for C2 on the order [0, 1, 2]: the jump 0 to 1 is elided, the
jump 0 to 2 is emitted explicitly. -/
theorem emit_amd64_jmp_fallthrough_elision_witness :
    emit_amd64_jmp [0, 1, 2] false 0 1 = []
    ∧ emit_amd64_jmp [0, 1, 2] false 0 2 = [AsmLine.jmp 2] := by
  constructor
  · have h := (emit_amd64_jmp_fallthrough_elision [0, 1, 2] false 0 1
      (by decide)).1
    simpa using h.mpr (by decide)
  · exact (emit_amd64_jmp_fallthrough_elision [0, 1, 2] false 0 2
      (by decide)).2 (by decide)

/-- Recognizer for the jump-on-parity instruction. -/
def is_jp : AsmLine → Bool
  | .jp _ => true
  | _ => false

/-- C3: when the true projection of a conditional branch targets the
fallthrough successor of its block, emit_amd64_jcc exchanges the two
projections and negates the condition code: the explicit conditional jump
is emitted with the negated condition toward the originally-false target
and the original true edge is left as a fallthrough (no jump, only the
optional comment). -/
theorem emit_amd64_jcc_swaps_on_true_fallthrough :
    ∀ (order : List Block) (verbose : Bool)
      (block target_true target_false : Block) (cc : Nat),
      fallthrough_possible order block target_true = true →
      emit_amd64_jcc order verbose block target_true target_false cc =
        (if x86_negate_condition_code cc &&& x86_cc_float_parity_cases ≠ 0 then
           if x86_negate_condition_code cc &&& x86_cc_negated ≠ 0 then
             [AsmLine.jp target_false]
           else [AsmLine.jp target_true]
         else [])
        ++ [AsmLine.jcc (x86_negate_condition_code cc) target_false]
        ++ (if verbose then [AsmLine.fallthroughComment target_true] else []) := by
  intro order verbose block target_true target_false cc h
  unfold emit_amd64_jcc amd64_jcc_swap
  simp [h]

/-- Witness for C3 on the order [0, 1] with true target 1 (the fallthrough
successor of block 0), false target 5 and condition code 4: an explicit
conditional jump with the negated code 5 toward block 5 and nothing for
the true edge. -/
theorem emit_amd64_jcc_swaps_on_true_fallthrough_witness :
    emit_amd64_jcc [0, 1] false 0 1 5 4 = [AsmLine.jcc 5 5] := by
  have h := emit_amd64_jcc_swaps_on_true_fallthrough [0, 1] false 0 1 5 4
    (by decide)
  simpa using h

/-- C4: whenever the condition code resulting from the projection exchange
belongs to the floating-point parity (unordered) family, emit_amd64_jcc
emits exactly one jp instruction, placed immediately before the primary
conditional jump; it targets the post-swap true projection's block when
the code carries the negated-polarity bit and the post-swap false
projection's block otherwise. -/
theorem emit_amd64_jcc_parity_jump :
    ∀ (order : List Block) (verbose : Bool)
      (block target_true target_false : Block) (cc : Nat)
      (proj_true proj_false : Block) (final_cc : Nat),
      amd64_jcc_swap order block target_true target_false cc
        = (proj_true, proj_false, final_cc) →
      final_cc &&& x86_cc_float_parity_cases ≠ 0 →
      ∃ rest : List AsmLine,
        emit_amd64_jcc order verbose block target_true target_false cc =
          AsmLine.jp (if final_cc &&& x86_cc_negated ≠ 0 then proj_true
                      else proj_false)
            :: AsmLine.jcc final_cc proj_true :: rest
        ∧ rest.countP is_jp = 0 := by
  intro order verbose block target_true target_false cc pt pf fcc h hp
  refine ⟨if fallthrough_possible order block pf then
            if verbose then [AsmLine.fallthroughComment pf] else []
          else [AsmLine.jmp pf], ?_, ?_⟩
  · unfold emit_amd64_jcc
    rw [h]
    by_cases hneg : fcc &&& x86_cc_negated ≠ 0 <;> simp [hp, hneg]
  · split
    · split <;> simp [is_jp]
    · simp [is_jp]

/-- Witness for C4 on the order [0, 9] (no fallthrough, so no exchange)
with condition code 33 = parity family + negated polarity: the jp is
emitted first and targets the true projection's block. -/
theorem emit_amd64_jcc_parity_jump_witness :
    ∃ rest : List AsmLine,
      emit_amd64_jcc [0, 9] false 0 3 4 33 =
        AsmLine.jp 3 :: AsmLine.jcc 33 3 :: rest
      ∧ rest.countP is_jp = 0 := by
  have h := emit_amd64_jcc_parity_jump [0, 9] false 0 3 4 33 3 4 33
    (by decide) (by decide)
  simpa using h

/-- Rendering of a signed 32-bit offset with an explicit sign, as the
"%+PRId32" format of the source produces. -/
def format_signed (off : Int) : String :=
  if 0 ≤ off then "+" ++ toString off else toString off

/-- emit_relocation_no_offset from amd64_emitter.c: print the entity name
followed by the kind's suffix; the kinds that must have been lowered
before emission abort the process (modelled as none). -/
def emit_relocation_no_offset (kind : x86_immediate_kind_t)
    (entity : String) : Option String :=
  match kind with
  | .X86_IMM_ADDR
  | .X86_IMM_PCREL => some entity
  | .X86_IMM_GOTPCREL => some (entity ++ "@GOTPCREL")
  | .X86_IMM_PLT => some (entity ++ "@PLT")
  | .X86_IMM_VALUE
  | .X86_IMM_TLS_IE
  | .X86_IMM_TLS_LE
  | .X86_IMM_PICBASE_REL
  | .X86_IMM_FRAMEENT
  | .X86_IMM_GOT
  | .X86_IMM_GOTOFF => none

/-- amd64_emit_addr from amd64_emitter.c: render one addressing-mode
operand.  The node's resolved input registers are supplied as a map from
input ordinal to register name; a panic (invalid relocation kind reaching
emission) is modelled as none. -/
def amd64_emit_addr (ins : Nat → String) (addr : amd64_addr_t) :
    Option String := do
  let offset := addr.immediate.offset
  let variant := addr.variant
  let part1 : String ←
    match addr.immediate.entity with
    | some ent => do
        let reloc ← emit_relocation_no_offset addr.immediate.kind ent
        pure (reloc ++ (if offset ≠ 0 then format_signed offset else ""))
    | none =>
        pure (if offset ≠ 0 ∨ variant = .X86_ADDR_JUST_IMM
              then toString offset else "")
  let part2 : String :=
    if variant ≠ .X86_ADDR_JUST_IMM then
      "(" ++
      (if variant = .X86_ADDR_RIP then "%rip"
       else
         (if x86_addr_variant_has_base variant
          then "%" ++ ins addr.base_input else "")
         ++ (if x86_addr_variant_has_index variant then
               "," ++ ("%" ++ ins addr.index_input)
               ++ (if addr.log_scale > 0
                   then "," ++ toString (2 ^ addr.log_scale) else "")
             else ""))
      ++ ")"
    else ""
  pure (part1 ++ part2)

/-- C7: the relocation suffix after the entity name is empty for the
absolute and PC-relative kinds, @GOTPCREL for the GOT-PC-relative kind and
@PLT for the PLT kind; the plain-value, TLS, picbase-relative,
frame-entity, GOT and GOT-offset kinds do not return but abort. -/
theorem emit_relocation_no_offset_suffixes :
    ∀ (kind : x86_immediate_kind_t) (entity : String),
      emit_relocation_no_offset kind entity =
        match kind with
        | .X86_IMM_ADDR | .X86_IMM_PCREL => some (entity ++ "")
        | .X86_IMM_GOTPCREL => some (entity ++ "@GOTPCREL")
        | .X86_IMM_PLT => some (entity ++ "@PLT")
        | .X86_IMM_VALUE | .X86_IMM_TLS_IE | .X86_IMM_TLS_LE
        | .X86_IMM_PICBASE_REL | .X86_IMM_FRAMEENT | .X86_IMM_GOT
        | .X86_IMM_GOTOFF => none := by
  intro kind entity
  cases kind <;> simp [emit_relocation_no_offset]

/-- Glue lemma: an opening parenthesis followed by a register percent
sign. -/
lemma append_paren_percent (s : String) : "(" ++ ("%" ++ s) = "(%" ++ s := by
  rw [← String.append_assoc]
  congr 1

/-- Glue lemma: a comma followed by a register percent sign. -/
lemma append_comma_percent (s : String) : "," ++ ("%" ++ s) = ",%" ++ s := by
  rw [← String.append_assoc]
  congr 1

/-- Glue lemma: the scale-8 suffix of a base+index operand. -/
lemma append_comma_scale8 (s : String) :
    "," ++ (toString (8 : Nat) ++ s) = ",8" ++ s := by
  rw [← String.append_assoc]
  congr 1

/-- C6: an Addr without relocation, nonzero displacement, base+index
variant and scale exponent 3 renders as disp(base,index,8); an Addr with
an absolute relocation, zero offset and base-only variant renders as
name(base); an Addr of the immediate-only variant renders as the bare
signed decimal displacement without any parenthesized suffix. -/
theorem amd64_emit_addr_rendering :
    ∀ (ins : Nat → String) (off disp : Int)
      (base_in idx_in mem_in reg_in : Nat) (name : String),
      off ≠ 0 →
      (amd64_emit_addr ins
          ⟨⟨.X86_IMM_VALUE, none, off⟩, base_in, idx_in, mem_in, reg_in, 3,
           .AMD64_SEGMENT_DEFAULT, .X86_ADDR_BASE_INDEX⟩
        = some (toString off ++ "(%" ++ ins base_in ++ ",%" ++ ins idx_in
                 ++ ",8)"))
      ∧ (amd64_emit_addr ins
          ⟨⟨.X86_IMM_ADDR, some name, 0⟩, base_in, idx_in, mem_in, reg_in, 0,
           .AMD64_SEGMENT_DEFAULT, .X86_ADDR_BASE⟩
        = some (name ++ "(%" ++ ins base_in ++ ")"))
      ∧ (amd64_emit_addr ins
          ⟨⟨.X86_IMM_VALUE, none, disp⟩, base_in, idx_in, mem_in, reg_in, 0,
           .AMD64_SEGMENT_DEFAULT, .X86_ADDR_JUST_IMM⟩
        = some (toString disp)) := by
  intro ins off disp base_in idx_in mem_in reg_in name hoff
  refine ⟨?_, ?_, ?_⟩
  · simp [amd64_emit_addr, emit_relocation_no_offset,
      x86_addr_variant_has_base, x86_addr_variant_has_index, hoff,
      String.append_assoc, append_paren_percent, append_comma_percent,
      append_comma_scale8]
  · simp [amd64_emit_addr, emit_relocation_no_offset,
      x86_addr_variant_has_base, x86_addr_variant_has_index,
      String.append_assoc, append_paren_percent, append_comma_percent]
  · simp [amd64_emit_addr, x86_addr_variant_has_base,
      x86_addr_variant_has_index]

/-- Witness for C6 at offset 5 with base register rax and index register
rbx, and at offset -7 for the immediate-only variant. -/
theorem amd64_emit_addr_rendering_witness :
    amd64_emit_addr (fun i => if i = 0 then "rax" else "rbx")
        ⟨⟨.X86_IMM_VALUE, none, 5⟩, 0, 1, 0, 0, 3,
         .AMD64_SEGMENT_DEFAULT, .X86_ADDR_BASE_INDEX⟩
      = some "5(%rax,%rbx,8)"
    ∧ amd64_emit_addr (fun i => if i = 0 then "rax" else "rbx")
        ⟨⟨.X86_IMM_VALUE, none, -7⟩, 0, 1, 0, 0, 0,
         .AMD64_SEGMENT_DEFAULT, .X86_ADDR_JUST_IMM⟩
      = some "-7" := by
  have h := amd64_emit_addr_rendering (fun i => if i = 0 then "rax" else "rbx")
    5 (-7) 0 1 0 0 "x" (by decide)
  refine ⟨?_, ?_⟩
  · have h1 := h.1
    simpa using h1
  · have h3 := h.2.2
    simpa using h3

/-- The sixteen general-purpose physical registers of the amd64 backend
(REG_RAX .. REG_R15 of the generated register table). -/
inductive amd64_gp_register where
  | REG_RAX
  | REG_RBX
  | REG_RCX
  | REG_RDX
  | REG_RSP
  | REG_RBP
  | REG_RSI
  | REG_RDI
  | REG_R8
  | REG_R9
  | REG_R10
  | REG_R11
  | REG_R12
  | REG_R13
  | REG_R14
  | REG_R15
deriving DecidableEq

/-- get_register_name_8bit from amd64_emitter.c (the panic branch for a
non-general-purpose register lies outside the sixteen-register domain). -/
def get_register_name_8bit : amd64_gp_register → String
  | .REG_RAX => "al"
  | .REG_RBX => "bl"
  | .REG_RCX => "cl"
  | .REG_RDX => "dl"
  | .REG_RSP => "spl"
  | .REG_RBP => "bpl"
  | .REG_RSI => "sil"
  | .REG_RDI => "dil"
  | .REG_R8  => "r8b"
  | .REG_R9  => "r9b"
  | .REG_R10 => "r10b"
  | .REG_R11 => "r11b"
  | .REG_R12 => "r12b"
  | .REG_R13 => "r13b"
  | .REG_R14 => "r14b"
  | .REG_R15 => "r15b"

/-- get_register_name_8bit_high from amd64_emitter.c: defined for the
first four registers only; the panic for every other register is modelled
as none. -/
def get_register_name_8bit_high : amd64_gp_register → Option String
  | .REG_RAX => some "ah"
  | .REG_RBX => some "bh"
  | .REG_RCX => some "ch"
  | .REG_RDX => some "dh"
  | _ => none

/-- get_register_name_16bit from amd64_emitter.c. -/
def get_register_name_16bit : amd64_gp_register → String
  | .REG_RAX => "ax"
  | .REG_RBX => "bx"
  | .REG_RCX => "cx"
  | .REG_RDX => "dx"
  | .REG_RSP => "sp"
  | .REG_RBP => "bp"
  | .REG_RSI => "si"
  | .REG_RDI => "di"
  | .REG_R8  => "r8w"
  | .REG_R9  => "r9w"
  | .REG_R10 => "r10w"
  | .REG_R11 => "r11w"
  | .REG_R12 => "r12w"
  | .REG_R13 => "r13w"
  | .REG_R14 => "r14w"
  | .REG_R15 => "r15w"

/-- get_register_name_32bit from amd64_emitter.c. -/
def get_register_name_32bit : amd64_gp_register → String
  | .REG_RAX => "eax"
  | .REG_RBX => "ebx"
  | .REG_RCX => "ecx"
  | .REG_RDX => "edx"
  | .REG_RSP => "esp"
  | .REG_RBP => "ebp"
  | .REG_RSI => "esi"
  | .REG_RDI => "edi"
  | .REG_R8  => "r8d"
  | .REG_R9  => "r9d"
  | .REG_R10 => "r10d"
  | .REG_R11 => "r11d"
  | .REG_R12 => "r12d"
  | .REG_R13 => "r13d"
  | .REG_R14 => "r14d"
  | .REG_R15 => "r15d"

/-- Modelled from the spec: the canonical 64-bit names held in the
generated register table (reg->name), which is not among the visible
sources; they are the architecture's 64-bit mnemonics. -/
def amd64_register_name : amd64_gp_register → String
  | .REG_RAX => "rax"
  | .REG_RBX => "rbx"
  | .REG_RCX => "rcx"
  | .REG_RDX => "rdx"
  | .REG_RSP => "rsp"
  | .REG_RBP => "rbp"
  | .REG_RSI => "rsi"
  | .REG_RDI => "rdi"
  | .REG_R8  => "r8"
  | .REG_R9  => "r9"
  | .REG_R10 => "r10"
  | .REG_R11 => "r11"
  | .REG_R12 => "r12"
  | .REG_R13 => "r13"
  | .REG_R14 => "r14"
  | .REG_R15 => "r15"

/-- get_register_name_mode from amd64_emitter.c: narrow a register name to
the requested operand size (64/80/128-bit requests keep the canonical
name). -/
def get_register_name_mode (reg : amd64_gp_register)
    (size : amd64_insn_size_t) : String :=
  match size with
  | .INSN_SIZE_8 => get_register_name_8bit reg
  | .INSN_SIZE_16 => get_register_name_16bit reg
  | .INSN_SIZE_32 => get_register_name_32bit reg
  | .INSN_SIZE_64
  | .INSN_SIZE_80
  | .INSN_SIZE_128 => amd64_register_name reg

/-- Enumeration of all sixteen general-purpose registers. -/
def all_gp_registers : List amd64_gp_register :=
  [.REG_RAX, .REG_RBX, .REG_RCX, .REG_RDX, .REG_RSP, .REG_RBP, .REG_RSI,
   .REG_RDI, .REG_R8, .REG_R9, .REG_R10, .REG_R11, .REG_R12, .REG_R13,
   .REG_R14, .REG_R15]

/-- The widths of the sub-name claim. -/
def gp_name_widths : List amd64_insn_size_t :=
  [.INSN_SIZE_8, .INSN_SIZE_16, .INSN_SIZE_32, .INSN_SIZE_64]

/-- All sixty-four (register, width) sub-names. -/
def all_gp_subnames : List String :=
  all_gp_registers.flatMap fun r =>
    gp_name_widths.map fun s => get_register_name_mode r s

/-- C8: the sub-name lookup is total over the sixteen general-purpose
registers and the widths 8/16/32/64, the sixty-four produced sub-names
are pairwise distinct, the accumulator register narrows to al/ax/eax and
keeps rax at width 64, and the high-byte lookup yields ah/bh/ch/dh for
the first four registers and fails fast (none) exactly for the others. -/
theorem gp_register_subnames :
    (∀ r : amd64_gp_register, r ∈ all_gp_registers)
    ∧ all_gp_subnames.Nodup
    ∧ get_register_name_mode .REG_RAX .INSN_SIZE_8 = "al"
    ∧ get_register_name_mode .REG_RAX .INSN_SIZE_16 = "ax"
    ∧ get_register_name_mode .REG_RAX .INSN_SIZE_32 = "eax"
    ∧ get_register_name_mode .REG_RAX .INSN_SIZE_64 = "rax"
    ∧ get_register_name_8bit_high .REG_RAX = some "ah"
    ∧ get_register_name_8bit_high .REG_RBX = some "bh"
    ∧ get_register_name_8bit_high .REG_RCX = some "ch"
    ∧ get_register_name_8bit_high .REG_RDX = some "dh"
    ∧ (∀ r : amd64_gp_register,
         get_register_name_8bit_high r = none
           ↔ r ∉ ([.REG_RAX, .REG_RBX, .REG_RCX, .REG_RDX] :
                    List amd64_gp_register)) := by
  refine ⟨?_, ?_, rfl, rfl, rfl, rfl, rfl, rfl, rfl, rfl, ?_⟩
  · intro r
    cases r <;> decide
  · decide
  · intro r
    cases r <;> decide

/-- The cross-node mutable emission state of amd64_emit_node /
amd64_gen_block: the running call-frame offset, together with the values
handed to the debug-frame sink (be_dwarf_callframe_offset). -/
structure EmitState where
  callframe_offset : Int
  dwarf_offsets    : List Int
deriving DecidableEq

/-- A scheduled node as seen by the frame-offset bookkeeping: its declared
stack-pointer delta (amd64_get_sp_bias). -/
structure SchedNode where
  sp_bias : Int
deriving DecidableEq

/-- amd64_emit_node from amd64_emitter.c (the per-node instruction text is
produced by be_emit_node and does not touch the state): when the frame
pointer is omitted and the node's declared stack-pointer delta is nonzero,
the running call-frame offset is increased by the delta and the new value
is reported to the debug-frame sink. -/
def amd64_emit_node (omit_fp : Bool) (node : SchedNode)
    (s : EmitState) : EmitState :=
  if omit_fp then
    if node.sp_bias ≠ 0 then
      { callframe_offset := s.callframe_offset + node.sp_bias,
        dwarf_offsets := s.dwarf_offsets ++ [s.callframe_offset + node.sp_bias] }
    else s
  else s

/-- amd64_gen_block from amd64_emitter.c: under omitted frame pointer the
offset is reset to 8 (return address), plus the frame type size for every
block but the start block, the reset value is reported, and then every
scheduled node of the block is emitted in order. -/
def amd64_gen_block (omit_fp : Bool) (frame_type_size : Int)
    (is_start_block : Bool) (nodes : List SchedNode)
    (s : EmitState) : EmitState :=
  let s :=
    if omit_fp then
      let off : Int := 8 + (if is_start_block then 0 else frame_type_size)
      { callframe_offset := off, dwarf_offsets := s.dwarf_offsets ++ [off] }
    else s
  nodes.foldl (fun st node => amd64_emit_node omit_fp node st) s

/-- C9 counterexample: when the frame pointer is not omitted, emitting a
node with declared stack-pointer delta 8 leaves the call-frame offset at 0
instead of increasing it by the delta, refuting the unconditional reading
of the claim. -/
theorem amd64_emit_node_no_update_with_frame_pointer :
    (amd64_emit_node false ⟨8⟩ ⟨0, []⟩).callframe_offset = 0
    ∧ (0 : Int) ≠ 0 + 8 := by
  exact ⟨rfl, by decide⟩

/-- C9 (amended): the only cross-node mutable emission state is the
EmitState record; when the frame pointer is omitted, a node with nonzero
declared stack-pointer delta increases the call-frame offset by exactly
that delta and reports the new value to the debug-frame sink, a node with
zero delta leaves the state unchanged, and when the frame pointer is kept
the state is never touched. -/
theorem amd64_emit_node_frame_offset :
    ∀ (node : SchedNode) (s : EmitState),
      (node.sp_bias ≠ 0 →
        (amd64_emit_node true node s).callframe_offset
            = s.callframe_offset + node.sp_bias
        ∧ (amd64_emit_node true node s).dwarf_offsets
            = s.dwarf_offsets ++ [s.callframe_offset + node.sp_bias])
      ∧ (node.sp_bias = 0 → amd64_emit_node true node s = s)
      ∧ (∀ omit_fp : Bool, omit_fp = false →
          amd64_emit_node omit_fp node s = s) := by
  intro node s
  refine ⟨?_, ?_, ?_⟩
  · intro h
    simp [amd64_emit_node, h]
  · intro h
    simp [amd64_emit_node, h]
  · intro omit_fp h
    simp [amd64_emit_node, h]

/-- Witness for C9 (amended): a node with delta 8 moves the offset from
0 to 8 and reports 8; a node with delta 0 changes nothing. -/
theorem amd64_emit_node_frame_offset_witness :
    (amd64_emit_node true ⟨8⟩ ⟨0, []⟩).callframe_offset = 0 + 8
    ∧ (amd64_emit_node true ⟨8⟩ ⟨0, []⟩).dwarf_offsets = [] ++ [0 + 8]
    ∧ amd64_emit_node true ⟨0⟩ ⟨0, []⟩ = ⟨0, []⟩ :=
  ⟨((amd64_emit_node_frame_offset ⟨8⟩ ⟨0, []⟩).1 (by decide)).1,
   ((amd64_emit_node_frame_offset ⟨8⟩ ⟨0, []⟩).1 (by decide)).2,
   (amd64_emit_node_frame_offset ⟨0⟩ ⟨0, []⟩).2.1 rfl⟩

/-- The amd64 register classes that emit_be_Copy distinguishes. -/
inductive amd64_register_class where
  | gp
  | xmm
  | x87
  | flags
deriving DecidableEq

/-- A physical register: its class and its canonical name. -/
structure ArchRegister where
  cls  : amd64_register_class
  name : String
deriving DecidableEq

/-- A Copy/CopyKeep node as seen by emit_be_Copy: the register assigned to
input 0 and the register assigned to output 0. -/
structure CopyNode where
  in0  : ArchRegister
  out0 : ArchRegister
deriving DecidableEq

/-- emit_be_Copy from amd64_emitter.c: nothing is emitted when input and
output registers coincide; otherwise a mov for general-purpose registers,
a movapd for xmm registers, nothing for x87 and a panic (none) for any
other class. -/
def emit_be_Copy (node : CopyNode) : Option (List String) :=
  if node.in0 == node.out0 then
    some []
  else
    match node.out0.cls with
    | .gp => some ["mov %" ++ node.in0.name ++ ", %" ++ node.out0.name]
    | .xmm => some ["movapd %" ++ node.in0.name ++ ", %" ++ node.out0.name]
    | .x87 => some []
    | .flags => none

/-- The backend node opcodes that amd64_register_emitters wires to
emit_be_Copy. -/
inductive be_copy_op where
  | be_Copy
  | be_CopyKeep
deriving DecidableEq

/-- The emitter registration of amd64_register_emitters restricted to the
Copy-like opcodes: both op_be_Copy and op_be_CopyKeep are handled by
emit_be_Copy. -/
def amd64_copy_emitter : be_copy_op → CopyNode → Option (List String)
  | .be_Copy => emit_be_Copy
  | .be_CopyKeep => emit_be_Copy

/-- C10: for Copy and CopyKeep nodes whose input register at position 0
equals the output register at position 0 nothing is emitted; an x87 copy
never emits an instruction even for distinct registers; distinct
general-purpose registers produce a mov and distinct xmm registers a
movapd. -/
theorem emit_be_Copy_cases :
    ∀ (op : be_copy_op) (node : CopyNode),
      (node.in0 = node.out0 → amd64_copy_emitter op node = some [])
      ∧ (node.out0.cls = .x87 → amd64_copy_emitter op node = some [])
      ∧ (node.in0 ≠ node.out0 → node.out0.cls = .gp →
          amd64_copy_emitter op node
            = some ["mov %" ++ node.in0.name ++ ", %" ++ node.out0.name])
      ∧ (node.in0 ≠ node.out0 → node.out0.cls = .xmm →
          amd64_copy_emitter op node
            = some ["movapd %" ++ node.in0.name ++ ", %" ++ node.out0.name]) := by
  intro op node
  have hop : amd64_copy_emitter op node = emit_be_Copy node := by
    cases op <;> rfl
  rw [hop]
  refine ⟨?_, ?_, ?_, ?_⟩
  · intro h
    simp [emit_be_Copy, h]
  · intro h
    by_cases he : node.in0 = node.out0
    · simp [emit_be_Copy, he]
    · simp only [emit_be_Copy, beq_iff_eq, if_neg he, h]
  · intro he h
    simp only [emit_be_Copy, beq_iff_eq, if_neg he, h]
  · intro he h
    simp only [emit_be_Copy, beq_iff_eq, if_neg he, h]

/-- Witness for C10: a same-register CopyKeep emits nothing, an x87 copy
between distinct stack slots emits nothing, and distinct gp respectively
xmm registers emit mov respectively movapd. -/
theorem emit_be_Copy_cases_witness :
    amd64_copy_emitter .be_CopyKeep ⟨⟨.gp, "rax"⟩, ⟨.gp, "rax"⟩⟩ = some []
    ∧ amd64_copy_emitter .be_Copy ⟨⟨.x87, "st"⟩, ⟨.x87, "st(1)"⟩⟩ = some []
    ∧ amd64_copy_emitter .be_Copy ⟨⟨.gp, "rax"⟩, ⟨.gp, "rbx"⟩⟩
        = some ["mov %rax, %rbx"]
    ∧ amd64_copy_emitter .be_Copy ⟨⟨.xmm, "xmm0"⟩, ⟨.xmm, "xmm1"⟩⟩
        = some ["movapd %xmm0, %xmm1"] := by
  refine ⟨?_, ?_, ?_, ?_⟩
  · exact (emit_be_Copy_cases .be_CopyKeep ⟨⟨.gp, "rax"⟩, ⟨.gp, "rax"⟩⟩).1 rfl
  · exact (emit_be_Copy_cases .be_Copy ⟨⟨.x87, "st"⟩, ⟨.x87, "st(1)"⟩⟩).2.1 rfl
  · have h := (emit_be_Copy_cases .be_Copy ⟨⟨.gp, "rax"⟩, ⟨.gp, "rbx"⟩⟩).2.2.1
      (by decide) rfl
    simpa using h
  · have h := (emit_be_Copy_cases .be_Copy
      ⟨⟨.xmm, "xmm0"⟩, ⟨.xmm, "xmm1"⟩⟩).2.2.2 (by decide) rfl
    simpa using h

end Firm
